import Mathlib

/-!
Verification of the simple-chatapp WebSocket chat server against its
natural-language specification.

The definitions below are a shallow embedding of the TypeScript source:
- `TokenBucketRateLimiter` (src/lib/rate-limiter.ts and the copy inside the
  server file): `refillTokens`, `isRateLimited`, `recordMessage`.
- `extractMentions` (src/utils/mentions.ts): regex scan for
  @-tokens, lowercase, dedupe, resolve against online users.
- `MessageRepository` (src/lib/database.ts): the SQL queries modelled over a
  list of rows; `startCleanupJob`'s sweep (TTL for all rooms, count cap for
  room "default" only).
- `MemoryStore` and `WebSocketChatServer` handlers (the server file):
  `addUser`, `joinRoom`, `removeUser`, `handleConnection`, `handleJoin`,
  `handleChatMessage`.

Times are rationals (milliseconds, as produced by `Date.now()`); token counts
are rationals (the JS code uses fractional tokens).
-/

/-! ### Token bucket (TokenBucketRateLimiter) -/

/-- State of one `TokenBucketRateLimiter`: `tokens`/`lastRefill` drive
admission; `lastMessageTime`/`messageCount` are bookkeeping fields the JS
class also carries. -/
structure Bucket where
  tokens : ℚ
  lastRefill : ℚ
  lastMessageTime : ℚ
  messageCount : ℕ
deriving DecidableEq, Repr

/-- JS `Math.min` on rationals, kept as an explicit conditional so that the
kernel can evaluate it. -/
def ratMin (a b : ℚ) : ℚ := if a ≤ b then a else b

/-- JS `Math.max` on rationals, kept as an explicit conditional so that the
kernel can evaluate it. -/
def ratMax (a b : ℚ) : ℚ := if a ≤ b then b else a

/-- `new TokenBucketRateLimiter()` at time `now`: full burst of 10 tokens. -/
def initBucket (now : ℚ) : Bucket :=
  { tokens := 10, lastRefill := now, lastMessageTime := 0, messageCount := 0 }

/-- `refillTokens()`:
`tokens = min(maxMessages, tokens + (now - lastRefill) / 1000 * refillRate)`
with `maxMessages = 10`, `refillRate = 3`; then `lastRefill = now`. -/
def refillTokens (b : Bucket) (now : ℚ) : Bucket :=
  { b with
    tokens := ratMin 10 (b.tokens + (now - b.lastRefill) / 1000 * 3)
    lastRefill := now }

/-- `isRateLimited()` first runs `refillTokens()` (mutating the bucket) and
then reports `tokens < 1`. -/
def isRateLimited (b : Bucket) (now : ℚ) : Bool × Bucket :=
  let b1 := refillTokens b now
  (decide (b1.tokens < 1), b1)

/-- `recordMessage()`: `tokens = max(0, tokens - 1)`, stamps
`lastMessageTime`, bumps `messageCount`. -/
def recordMessage (b : Bucket) (now : ℚ) : Bucket :=
  { b with
    tokens := ratMax 0 (b.tokens - 1)
    lastMessageTime := now
    messageCount := b.messageCount + 1 }

/-- One externally visible bucket operation, with the `Date.now()` value it
observes: `check` is a call to `isRateLimited` (which refills), `record` a
call to `recordMessage`. -/
inductive BucketOp where
  | check (now : ℚ)
  | record (now : ℚ)
deriving DecidableEq, Repr

/-- The clock value an operation observes. -/
def BucketOp.time : BucketOp → ℚ
  | .check now => now
  | .record now => now

/-- Effect of one operation on the bucket state. -/
def bucketStep (b : Bucket) : BucketOp → Bucket
  | .check now => refillTokens b now
  | .record now => recordMessage b now

/-- A whole sequence of bucket operations. -/
def runBucket (b : Bucket) (ops : List BucketOp) : Bucket :=
  ops.foldl bucketStep b

/-! ### Mention extraction (src/utils/mentions.ts) -/

/-- A member as seen by mention resolution (`OnlineUser`). -/
structure OnlineUser where
  id : String
  displayName : String
deriving DecidableEq, Repr

/-- The character class of the JS regex `[\w.-]` = `[A-Za-z0-9_.-]`. -/
def isWordChar (c : Char) : Bool :=
  c.isAlphanum || c = '_' || c = '.' || c = '-'

/-- Scanner for the global regex `@([\w.-]{1,50})`: the accumulator is
`some acc` after an unconsumed `@` with `acc` the (reversed) token collected
so far; a token closes at a non-word character, at the 51st word character,
or at end of input. Matches JS `regex.exec` semantics: the scan resumes right
after each match. -/
def scanAux : List Char → Option (List Char) → List (List Char)
  | [], none => []
  | [], some acc => if acc.isEmpty then [] else [acc.reverse]
  | c :: rest, none =>
      if c = '@' then scanAux rest (some []) else scanAux rest none
  | c :: rest, some acc =>
      if isWordChar c && acc.length < 50 then
        scanAux rest (some (c :: acc))
      else
        (if acc.isEmpty then [] else [acc.reverse]) ++
          scanAux rest (if c = '@' then some [] else none)

/-- JS `Array.from(new Set(...))`: dedupe keeping first occurrences. -/
def jsDedup [DecidableEq α] (l : List α) : List α :=
  l.foldl (fun acc x => if x ∈ acc then acc else acc ++ [x]) []

/-- `toLowerCase()` (ASCII; mention tokens only contain ASCII). -/
def lowerStr (s : String) : String :=
  (s.toList.map Char.toLower).asString

/-- `extractMentionTokens`: all regex matches, lowercased, deduped. -/
def extractMentionTokens (text : String) : List String :=
  jsDedup ((scanAux text.toList none).map (fun l => (l.map Char.toLower).asString))

/-- `resolveMentionsToUserIds`: a `Map` from lowercased display name to id is
built by `forEach`+`set`, so for duplicate lowercased names the LAST user
wins; tokens resolve through it and the resulting ids are deduped. -/
def resolveMentionsToUserIds (tokens : List String) (users : List OnlineUser) : List String :=
  jsDedup (tokens.filterMap
    (fun t => (users.reverse.find? (fun u => lowerStr u.displayName == t)).map (·.id)))

/-- `extractMentions(text, onlineUsers)`. -/
def extractMentions (text : String) (users : List OnlineUser) : List String :=
  resolveMentionsToUserIds (extractMentionTokens text) users

/-! ### Message rows and repository queries (src/lib/database.ts) -/

/-- A row of the `messages` table (`DbMessage`); the table has no mentions
column. -/
structure Msg where
  id : String
  roomId : String
  userId : String
  displayName : String
  text : String
  ts : ℚ
deriving DecidableEq, Repr

/-- `ORDER BY ts ASC` comparison. -/
def byTsAsc (a b : Msg) : Prop := a.ts ≤ b.ts

/-- `ORDER BY ts DESC` comparison. -/
def byTsDesc (a b : Msg) : Prop := b.ts ≤ a.ts

instance : DecidableRel byTsAsc := fun a b => inferInstanceAs (Decidable (a.ts ≤ b.ts))

instance : DecidableRel byTsDesc := fun a b => inferInstanceAs (Decidable (b.ts ≤ a.ts))

instance : IsTotal Msg byTsAsc := ⟨fun a b => le_total a.ts b.ts⟩

instance : IsTrans Msg byTsAsc := ⟨fun _ _ _ h1 h2 => le_trans h1 h2⟩

instance : IsTotal Msg byTsDesc := ⟨fun a b => le_total b.ts a.ts⟩

instance : IsTrans Msg byTsDesc := ⟨fun _ _ _ h1 h2 => le_trans h2 h1⟩

/-- `getMessagesSince`: `SELECT * WHERE room_id = ? AND ts > ? ORDER BY ts ASC`. -/
def getMessagesSince (db : List Msg) (roomId : String) (sinceTs : ℚ) : List Msg :=
  List.insertionSort byTsAsc
    (db.filter (fun m => m.roomId == roomId && decide (sinceTs < m.ts)))

/-- `getRecentMessages`: `SELECT * WHERE room_id = ? ORDER BY ts DESC LIMIT ?`,
then `rows.reverse()` in JS, so the result is the newest `limit` rows
oldest-first. -/
def getRecentMessages (db : List Msg) (roomId : String) (limit : ℕ) : List Msg :=
  ((List.insertionSort byTsDesc (db.filter (fun m => m.roomId == roomId))).take limit).reverse

/-- `getMessagesBefore`: `SELECT * WHERE room_id = ? AND ts < ? ORDER BY ts
DESC LIMIT ?` then reversed. Note the cursor is a timestamp, not an id. -/
def getMessagesBefore (db : List Msg) (roomId : String) (beforeTs : ℚ) (limit : ℕ) : List Msg :=
  ((List.insertionSort byTsDesc
    (db.filter (fun m => m.roomId == roomId && decide (m.ts < beforeTs)))).take limit).reverse

/-- `cleanupByTtl`: `DELETE FROM messages WHERE ts < cutoff` where
`cutoff = Date.now() - ttlMs`; the surviving rows. -/
def cleanupByTtl (db : List Msg) (cutoff : ℚ) : List Msg :=
  db.filter (fun m => decide (cutoff ≤ m.ts))

/-- `cleanupByCount(roomId, maxCount)`: deletes the rows of `roomId` beyond
the newest `maxCount` (`ORDER BY ts DESC LIMIT -1 OFFSET maxCount`). -/
def cleanupByCount (db : List Msg) (roomId : String) (maxCount : ℕ) : List Msg :=
  db.filter (fun m => decide (m.id ∉
    ((List.insertionSort byTsDesc (db.filter (fun x => x.roomId == roomId))).drop maxCount).map
      (fun x => x.id)))

/-- One tick of `startCleanupJob`: TTL cleanup (24h, all rooms), then count
cleanup for room `"default"` only (the code comment says the count cap is
implemented for the default room only). -/
def runCleanupJob (db : List Msg) (now : ℚ) : List Msg :=
  cleanupByCount (cleanupByTtl db (now - 86400000)) "default" 500

/-! ### Association-list helpers for the JS `Map`s -/

/-- `Map.get`. -/
def alookup [DecidableEq α] : List (α × β) → α → Option β
  | [], _ => none
  | (k', v) :: rest, k => if k' = k then some v else alookup rest k

/-- `Map.set`: overwrite in place (preserving insertion order), else append. -/
def assocSet [DecidableEq α] : List (α × β) → α → β → List (α × β)
  | [], k, v => [(k, v)]
  | (k', v') :: rest, k, v =>
      if k' = k then (k', v) :: rest else (k', v') :: assocSet rest k v

/-- Update the value stored at a key in place (JS `Map` keys are unique, so
rewriting every matching entry coincides with mutating the stored value). -/
def assocUpdate [DecidableEq α] : List (α × β) → α → (β → β) → List (α × β)
  | [], _, _ => []
  | (k', v) :: rest, k, f =>
      if k' = k then (k', f v) :: assocUpdate rest k f
      else (k', v) :: assocUpdate rest k f

/-- `Set.add`: append if absent (JS `Set` keeps insertion order). -/
def setAdd [DecidableEq α] (l : List α) (x : α) : List α :=
  if x ∈ l then l else l ++ [x]

/-! ### MemoryStore and server state -/

/-- The module-level `MemoryStore` of the server plus the per-socket
`ws.roomId` markers: `users` maps userId to displayName, `connections` maps
userId to a socket identifier, `rooms` maps roomId to its member userIds,
`rateLimiters` maps userId to its bucket, `typing` maps roomId to the typing
userIds, and `connRoom` maps a socket identifier to that socket's
`ws.roomId` field. -/
structure SrvState where
  users : List (String × String)
  connections : List (String × ℕ)
  rooms : List (String × List String)
  rateLimiters : List (String × Bucket)
  typing : List (String × List String)
  connRoom : List (ℕ × Option String)
deriving DecidableEq, Repr

/-- `MemoryStore.joinRoom(userId, roomId)`: ensure the room exists, add the
user to its member set, and set the connection's `ws.roomId` marker to this
room (when the user has a connection). -/
def joinRoom (s : SrvState) (u r : String) : SrvState :=
  { s with
    rooms := assocUpdate
      (if (alookup s.rooms r).isSome then s.rooms else s.rooms ++ [(r, [])]) r
      (fun ms => setAdd ms u)
    connRoom :=
      match alookup s.connections u with
      | some cid => assocSet s.connRoom cid (some r)
      | none => s.connRoom }

/-- `MemoryStore.addUser`: register user and socket, create the rate limiter
only if absent (buckets survive reconnects), then `joinRoom(u, "default")`.
Note: nothing is sent to or done with any previously registered socket. -/
def addUser (s : SrvState) (u dn : String) (cid : ℕ) (now : ℚ) : SrvState :=
  let s1 : SrvState :=
    { s with
      users := assocSet s.users u dn
      connections := assocSet s.connections u cid
      rateLimiters :=
        if (alookup s.rateLimiters u).isSome then s.rateLimiters
        else assocSet s.rateLimiters u (initBucket now) }
  joinRoom s1 u "default"

/-- `MemoryStore.removeUser`: drop the user and connection entries and remove
the user from every room, deleting rooms that become empty. -/
def removeUser (s : SrvState) (u : String) : SrvState :=
  { s with
    users := s.users.filter (fun p => p.1 != u)
    connections := s.connections.filter (fun p => p.1 != u)
    rooms := s.rooms.filterMap (fun p =>
      if (p.2.filter (fun v => v != u)).isEmpty then none
      else some (p.1, p.2.filter (fun v => v != u))) }

/-- `MemoryStore.updateDisplayName`: rewrite the stored display name. -/
def updateDisplayName (s : SrvState) (u dn : String) : SrvState :=
  { s with users := assocUpdate s.users u (fun _ => dn) }

/-- State effect of `MemoryStore.startTyping` (timers and broadcasts aside). -/
def startTyping (s : SrvState) (u r : String) : SrvState :=
  let t1 := if (alookup s.typing r).isSome then s.typing else s.typing ++ [(r, [])]
  { s with typing := assocUpdate t1 r (fun ms => setAdd ms u) }

/-- State effect of `MemoryStore.stopTyping`. -/
def stopTyping (s : SrvState) (u r : String) : SrvState :=
  match alookup s.typing r with
  | none => s
  | some ms =>
      if (ms.filter (fun v => v != u)).isEmpty then
        { s with typing := s.typing.filter (fun p => p.1 != r) }
      else { s with typing := assocUpdate s.typing r (fun _ => ms.filter (fun v => v != u)) }

/-- The member-id list of a room (`rooms.get(roomId)`, empty when absent). -/
def roomMembers (s : SrvState) (r : String) : List String :=
  (alookup s.rooms r).getD []

/-- `getRoomMembers`: member ids mapped to `(id, displayName)` pairs,
dropping ids with no user record. -/
def memberView (s : SrvState) (r : String) : List (String × String) :=
  (roomMembers s r).filterMap (fun uid => (alookup s.users uid).map (fun dn => (uid, dn)))

/-! ### Protocol frames and handlers -/

/-- The `error.code` vocabulary. -/
inductive ErrCode where
  | UNAUTH
  | RATE_LIMIT
  | BAD_REQUEST
  | SERVER_ERROR
deriving DecidableEq, Repr

/-- Server-to-client frames (`ServerToClientEvents`). -/
inductive OutFrame where
  | hello (selfId : String) (users : List (String × String))
  | presence (users : List (String × String))
  | message (id roomId userId displayName text : String)
      (mentions : Option (List String)) (ts : ℚ)
  | history (roomId : String) (messages : List Msg) (nextCursorBeforeTs : Option ℚ)
  | userTyping (roomId userId displayName : String)
  | userTypingStop (roomId userId : String)
  | error (code : ErrCode) (msg : String)
deriving DecidableEq, Repr

/-- `broadcastPresence(roomId)`: one `presence` frame carrying the member
view, delivered to the current socket of every member of the room. -/
def broadcastPresenceSends (s : SrvState) (r : String) : List (ℕ × OutFrame) :=
  let users := memberView s r
  (roomMembers s r).filterMap
    (fun uid => (alookup s.connections uid).map (fun cid => (cid, OutFrame.presence users)))

/-- Result of admitting a connection (`handleConnection`): new store state,
frames sent keyed by socket identifier, and sockets closed by the server
with their close codes. -/
structure ConnectOutcome where
  state : SrvState
  sends : List (ℕ × OutFrame)
  closes : List (ℕ × ℕ)
deriving DecidableEq, Repr

/-- `handleConnection` after a successful upgrade: `addUser` (which joins
`"default"`), a `hello` frame to the new socket, then
`broadcastPresence("default")`. The code never closes or notifies a prior
socket of the same user. -/
def connectUser (s : SrvState) (u dn : String) (cid : ℕ) (now : ℚ) : ConnectOutcome :=
  let s1 := addUser s u dn cid now
  { state := s1
    sends := (cid, OutFrame.hello u (memberView s1 "default")) :: broadcastPresenceSends s1 "default"
    closes := [] }

/-- The fields of `ExtendedWebSocket` read by the message handlers. -/
structure ConnInfo where
  userId : String
  displayName : String
  roomId : Option String
deriving DecidableEq, Repr

/-- An inbound `message` frame after JSON parsing. -/
structure MsgFrame where
  roomId : String
  text : String
deriving DecidableEq, Repr

/-- Result of `handleChatMessage`: the messages table, the sender's bucket,
frames sent directly to the sender's socket, and the broadcast fan-out as
(recipient userId, frame) pairs. -/
structure MsgOutcome where
  db : List Msg
  bucket : Bucket
  senderFrames : List OutFrame
  broadcast : List (String × OutFrame)
deriving DecidableEq, Repr

/-- `handleMessage`/`handleChatMessage` for a `message` frame. The Zod
`MessageSchema` only enforces `text.max(2000)` (BAD_REQUEST via ZodError on
violation). On admission denial only a RATE_LIMIT error goes to the sender.
Otherwise `createMessage` persists the row (with a fresh id and `Date.now()`
timestamp, and no mentions: the mention argument is omitted, marked TODO in
the source), `recordMessage` is called, and the frame is broadcast to every
member of the frame's `roomId` who has a connection — the sender is not
excluded, and the connection's own current room is never consulted. -/
def processMessageFrame (s : SrvState) (db : List Msg) (conn : ConnInfo)
    (bucket : Bucket) (f : MsgFrame) (now : ℚ) (newId : String) : MsgOutcome :=
  if 2000 < f.text.length then
    { db := db, bucket := bucket
      senderFrames := [OutFrame.error ErrCode.BAD_REQUEST "Invalid message data"]
      broadcast := [] }
  else
    let b1 := refillTokens bucket now
    if b1.tokens < 1 then
      { db := db, bucket := b1
        senderFrames := [OutFrame.error ErrCode.RATE_LIMIT "Too many messages. Slow down."]
        broadcast := [] }
    else
      let row : Msg :=
        { id := newId, roomId := f.roomId, userId := conn.userId
          displayName := conn.displayName, text := f.text, ts := now }
      let out := OutFrame.message newId f.roomId conn.userId conn.displayName f.text none now
      { db := db ++ [row]
        bucket := recordMessage b1 now
        senderFrames := []
        broadcast := ((roomMembers s f.roomId).filter
          (fun uid => (alookup s.connections uid).isSome)).map (fun uid => (uid, out)) }

/-- An inbound `join` frame. -/
structure JoinFrame where
  roomId : String
  sinceTs : Option ℚ
  beforeId : Option String
deriving DecidableEq, Repr

/-- JS truthiness of the optional `sinceTs` number: `0` counts as absent. -/
def truthyNum : Option ℚ → Option ℚ
  | some t => if t = 0 then none else some t
  | none => none

/-- JS truthiness of the optional `beforeId` string: `""` counts as absent. -/
def truthyStr : Option String → Option String
  | some s => if s = "" then none else some s
  | none => none

/-- Result of `handleJoin`: new store state, the `history` payload sent to
the joining socket, and the presence broadcast. -/
structure JoinOutcome where
  state : SrvState
  messages : List Msg
  nextCursorBeforeTs : Option ℚ
  presenceSends : List (ℕ × OutFrame)
deriving DecidableEq, Repr

/-- `handleJoin`: join the room; then if `sinceTs` is truthy use
`getMessagesSince`, else if `beforeId` is truthy fall back to
`getRecentMessages(roomId, 100)` (the code comments this branch as a
simplified implementation), else `getRecentMessages(roomId, 100)`; the
`nextCursor` carries `beforeTs = messages[0].ts` when non-empty; finally
`broadcastPresence(roomId)`. -/
def handleJoin (s : SrvState) (db : List Msg) (u : String) (f : JoinFrame) : JoinOutcome :=
  let s1 := joinRoom s u f.roomId
  let msgs :=
    match truthyNum f.sinceTs with
    | some t => getMessagesSince db f.roomId t
    | none =>
        match truthyStr f.beforeId with
        | some _ => getRecentMessages db f.roomId 100
        | none => getRecentMessages db f.roomId 100
  { state := s1
    messages := msgs
    nextCursorBeforeTs := match msgs with | [] => none | m :: _ => some m.ts
    presenceSends := broadcastPresenceSends s1 f.roomId }

/-- Recognizer for `error` frames. -/
def isErrFrame : OutFrame → Bool
  | .error _ _ => true
  | _ => false

/-! ### Concrete scenarios used by counterexamples and witnesses -/

/-- A small live store: Alice and Bob are members of `"default"`, Carol of
`"other"`; all three have connections. -/
def demoStore : SrvState :=
  { users := [("alice", "Alice"), ("bob", "Bob"), ("carol", "Carol")]
    connections := [("alice", 1), ("bob", 2), ("carol", 3)]
    rooms := [("default", ["alice", "bob"]), ("other", ["carol"])]
    rateLimiters := [("alice", initBucket 0)]
    typing := []
    connRoom := [(1, some "default"), (2, some "default"), (3, some "other")] }

/-- A store with a single user `"u"` whose live socket is number 1. -/
def soloStore : SrvState :=
  { users := [("u", "U")]
    connections := [("u", 1)]
    rooms := [("default", ["u"])]
    rateLimiters := [("u", initBucket 0)]
    typing := []
    connRoom := [(1, some "default")] }

/-- A store with no users at all. -/
def emptyStore : SrvState :=
  { users := [], connections := [], rooms := [], rateLimiters := [], typing := [], connRoom := [] }

/-- A stored row with timestamp 0 (the epoch). -/
def rowEpoch : Msg := ⟨"01A", "default", "u", "U", "hi", 0⟩

/-- A stored row in `"default"` at ts 1. -/
def rowOne : Msg := ⟨"01A", "default", "u", "U", "one", 1⟩

/-- A stored row in `"default"` at ts 2. -/
def rowTwo : Msg := ⟨"01B", "default", "u", "U", "two", 2⟩

/-- A stored row in room `"other"`, within TTL of the sweep below. -/
def rowOther : Msg := ⟨"A1", "other", "u", "U", "x", 1000⟩

/-- A two-room table: one row in `"other"`, one in `"default"`. -/
def twoRoomDb : List Msg := [rowOther, ⟨"B1", "default", "u", "U", "y", 1000⟩]

/-- A 2001-character text, above the schema's 2000 cap. -/
def longText : String := String.mk (List.replicate 2001 'a')

/-! ### Helper lemmas -/

/-- `ratMin` is `min`. -/
theorem ratMin_eq_min (a b : ℚ) : ratMin a b = min a b := (min_def a b).symm

/-- `ratMax` is `max`. -/
theorem ratMax_eq_max (a b : ℚ) : ratMax a b = max a b := (max_def a b).symm

/-- Looking up the key just written by `assocSet`. -/
theorem alookup_assocSet_self [DecidableEq α] (l : List (α × β)) (k : α) (v : β) :
    alookup (assocSet l k v) k = some v := by
  induction l with
  | nil => simp [assocSet, alookup]
  | cons p rest ih =>
      obtain ⟨a, b⟩ := p
      by_cases h : a = k
      · simp [assocSet, alookup, h]
      · simp [assocSet, alookup, h, ih]

/-- `assocSet` leaves other keys untouched. -/
theorem alookup_assocSet_ne [DecidableEq α] (l : List (α × β)) (k k' : α) (v : β)
    (h : k ≠ k') : alookup (assocSet l k v) k' = alookup l k' := by
  induction l with
  | nil => simp [assocSet, alookup, h]
  | cons p rest ih =>
      obtain ⟨a, b⟩ := p
      by_cases hp : a = k
      · subst hp
        simp [assocSet, alookup, h]
      · by_cases hq : a = k'
        · subst hq
          simp [assocSet, alookup, hp, Ne.symm h]
        · simp [assocSet, alookup, hp, hq, ih]

/-- Looking up the updated key after `assocUpdate`. -/
theorem alookup_assocUpdate_self [DecidableEq α] (l : List (α × β)) (k : α) (f : β → β) :
    alookup (assocUpdate l k f) k = (alookup l k).map f := by
  induction l with
  | nil => simp [assocUpdate, alookup]
  | cons p rest ih =>
      obtain ⟨a, b⟩ := p
      by_cases hp : a = k
      · simp [assocUpdate, alookup, hp]
      · simp [assocUpdate, alookup, hp, ih]

/-- `assocUpdate` leaves other keys untouched. -/
theorem alookup_assocUpdate_ne [DecidableEq α] (l : List (α × β)) (k k' : α) (f : β → β)
    (h : k ≠ k') : alookup (assocUpdate l k f) k' = alookup l k' := by
  induction l with
  | nil => simp [assocUpdate, alookup]
  | cons p rest ih =>
      obtain ⟨a, b⟩ := p
      by_cases hp : a = k
      · subst hp
        simp [assocUpdate, alookup, h, ih]
      · by_cases hq : a = k'
        · subst hq
          simp [assocUpdate, alookup, hp]
        · simp [assocUpdate, alookup, hp, hq, ih]

/-- Appending a missing key makes it found. -/
theorem alookup_append_single_self [DecidableEq α] (l : List (α × β)) (k : α) (v : β)
    (h : alookup l k = none) : alookup (l ++ [(k, v)]) k = some v := by
  induction l with
  | nil => simp [alookup]
  | cons p rest ih =>
      obtain ⟨a, b⟩ := p
      by_cases hp : a = k
      · simp [alookup, hp] at h
      · simp only [alookup, hp, if_neg] at h
        simpa [alookup, hp] using ih h

/-- Appending an entry for `k` does not change lookups of other keys. -/
theorem alookup_append_single_ne [DecidableEq α] (l : List (α × β)) (k k' : α) (v : β)
    (h : k ≠ k') : alookup (l ++ [(k, v)]) k' = alookup l k' := by
  induction l with
  | nil => simp [alookup, h]
  | cons p rest ih =>
      obtain ⟨a, b⟩ := p
      by_cases hp : a = k'
      · simp [alookup, hp]
      · simpa [alookup, hp] using ih

/-- Membership in a JS `Set.add`. -/
theorem mem_setAdd [DecidableEq α] (l : List α) (x v : α) :
    v ∈ setAdd l x ↔ v ∈ l ∨ v = x := by
  unfold setAdd
  by_cases h : x ∈ l
  · simp only [if_pos h]
    constructor
    · exact fun hv => Or.inl hv
    · rintro (hv | rfl) <;> [exact hv; exact h]
  · simp [if_neg h]

/-- A shorter head below a `≤`-chain still heads a chain. -/
theorem chain_le_of_le {x y : ℚ} {l : List ℚ} (hxy : x ≤ y)
    (h : List.Chain' (· ≤ ·) (y :: l)) : List.Chain' (· ≤ ·) (x :: l) := by
  cases l with
  | nil => exact List.chain'_singleton x
  | cons z zs =>
      rw [List.chain'_cons] at h ⊢
      exact ⟨le_trans hxy h.1, h.2⟩

/-! ### C6 -/

/-- C6 counterexample: drain the bucket with ten sends at t=1000, then let the
clock jump back to t=0 and call the admission check. The claim says a
backward clock leaves the token count unchanged and tokens stay in [0, 10];
the code instead refills with a negative elapsed time, moving tokens from 0
to -3. -/
theorem c6_counterexample :
    (runBucket (initBucket 1000) (List.replicate 10 (BucketOp.record 1000))).tokens = 0 ∧
    (runBucket (initBucket 1000)
      (List.replicate 10 (BucketOp.record 1000) ++ [BucketOp.check 0])).tokens = -3 ∧
    (runBucket (initBucket 1000)
      (List.replicate 10 (BucketOp.record 1000) ++ [BucketOp.check 0])).lastRefill = 0 := by
  refine ⟨?_, ?_, ?_⟩ <;>
    simp [runBucket, bucketStep, recordMessage, refillTokens, ratMin, ratMax, initBucket,
      List.replicate] <;>
    norm_num

/-- C6 amended: the upper bound `tokens ≤ 10` always holds — for every
operation sequence at arbitrary (also backward-jumping) timestamps, starting
from any bucket at or below capacity, since the refill clamps with
`min(10, ·)` and the decrement only lowers the count; `0 ≤ tokens` holds for
every sequence of operations whose observed clock values are monotone (each
at least the bucket's `lastRefill`); moreover a refill always advances
`lastRefill` to the observed `now` (also when the clock moved backward — the
bucket is then NOT left unchanged, as the counterexample shows: tokens drop
by 3/1000 per millisecond of backward skew, possibly below 0). -/
theorem c6_monotone_bounds :
    (∀ (ops : List BucketOp) (b : Bucket), b.tokens ≤ 10 →
        (runBucket b ops).tokens ≤ 10) ∧
    (∀ (ops : List BucketOp) (b : Bucket),
        0 ≤ b.tokens → b.tokens ≤ 10 →
        List.Chain' (· ≤ ·) (b.lastRefill :: ops.map BucketOp.time) →
        0 ≤ (runBucket b ops).tokens ∧ (runBucket b ops).tokens ≤ 10) ∧
    (∀ (b : Bucket) (now : ℚ), (refillTokens b now).lastRefill = now) := by
  refine ⟨?_, ?_, ?_⟩
  · intro ops
    induction ops with
    | nil => intro b h10; exact h10
    | cons op rest ih =>
        intro b h10
        show (runBucket (bucketStep b op) rest).tokens ≤ 10
        cases op with
        | check t =>
            refine ih _ ?_
            show (refillTokens b t).tokens ≤ 10
            rw [refillTokens]
            simp only [ratMin_eq_min]
            exact min_le_left _ _
        | record t =>
            refine ih _ ?_
            show (recordMessage b t).tokens ≤ 10
            rw [recordMessage]
            simp only [ratMax_eq_max]
            exact max_le (by norm_num) (by linarith)
  · intro ops
    induction ops with
    | nil => intro b h0 h10 _; exact ⟨h0, h10⟩
    | cons op rest ih =>
        intro b h0 h10 hchain
        rw [List.map_cons, List.chain'_cons] at hchain
        obtain ⟨hle, hchain'⟩ := hchain
        show 0 ≤ (runBucket (bucketStep b op) rest).tokens ∧
          (runBucket (bucketStep b op) rest).tokens ≤ 10
        cases op with
        | check t =>
            have hd : 0 ≤ (t - b.lastRefill) / 1000 * 3 := by
              have ht : (0 : ℚ) ≤ t - b.lastRefill := by
                simpa [BucketOp.time] using sub_nonneg.mpr hle
              positivity
            refine ih _ ?_ ?_ ?_
            · show 0 ≤ (refillTokens b t).tokens
              rw [refillTokens]
              simp only [ratMin_eq_min]
              exact le_min (by norm_num) (by linarith)
            · show (refillTokens b t).tokens ≤ 10
              rw [refillTokens]
              simp only [ratMin_eq_min]
              exact min_le_left _ _
            · simpa [refillTokens, BucketOp.time] using hchain'
        | record t =>
            refine ih _ ?_ ?_ ?_
            · show 0 ≤ (recordMessage b t).tokens
              rw [recordMessage]
              simp only [ratMax_eq_max]
              exact le_max_left _ _
            · show (recordMessage b t).tokens ≤ 10
              rw [recordMessage]
              simp only [ratMax_eq_max]
              exact max_le (by norm_num) (by linarith)
            · exact chain_le_of_le (by simpa [BucketOp.time] using hle)
                (by simpa [recordMessage] using hchain')
  · intro b now; rfl

/-- C6 witness: the upper bound holds on a concrete backward-clock run; a
concrete monotone run stays in both bounds; a concrete refill advances
`lastRefill`. -/
theorem c6_monotone_bounds_witness :
    (runBucket (initBucket 1000) [BucketOp.record 1000, BucketOp.check 0]).tokens ≤ 10 ∧
    (0 ≤ (runBucket (initBucket 5) [BucketOp.check 6, BucketOp.record 7]).tokens ∧
     (runBucket (initBucket 5) [BucketOp.check 6, BucketOp.record 7]).tokens ≤ 10) ∧
    (refillTokens (initBucket 5) 6).lastRefill = 6 :=
  ⟨c6_monotone_bounds.1 [BucketOp.record 1000, BucketOp.check 0] (initBucket 1000)
      (by norm_num [initBucket]),
   c6_monotone_bounds.2.1 [BucketOp.check 6, BucketOp.record 7] (initBucket 5)
      (by norm_num [initBucket]) (by norm_num [initBucket])
      (by norm_num [initBucket, BucketOp.time, List.chain'_cons]),
   c6_monotone_bounds.2.2 (initBucket 5) 6⟩

/-! ### C4 -/

/-- C4: on admission denial (fewer than 1 token after the lazy refill) the
sender alone gets a RATE_LIMIT error, nothing is persisted, there is no
fan-out, and no token is consumed: the bucket only undergoes the refill that
every admission check performs, which (for a monotone clock and a bucket at
or below capacity) never decreases the token count. -/
theorem c4_rate_limit_denial (s : SrvState) (db : List Msg) (conn : ConnInfo)
    (bucket : Bucket) (f : MsgFrame) (now : ℚ) (newId : String)
    (hlen : f.text.length ≤ 2000)
    (hlim : (refillTokens bucket now).tokens < 1) :
    (processMessageFrame s db conn bucket f now newId).senderFrames =
      [OutFrame.error ErrCode.RATE_LIMIT "Too many messages. Slow down."] ∧
    (processMessageFrame s db conn bucket f now newId).db = db ∧
    (processMessageFrame s db conn bucket f now newId).broadcast = [] ∧
    (processMessageFrame s db conn bucket f now newId).bucket = refillTokens bucket now ∧
    (bucket.tokens ≤ 10 → bucket.lastRefill ≤ now →
      bucket.tokens ≤ (processMessageFrame s db conn bucket f now newId).bucket.tokens) := by
  unfold processMessageFrame
  rw [if_neg (not_lt.mpr hlen), if_pos hlim]
  refine ⟨rfl, rfl, rfl, rfl, ?_⟩
  intro h10 hmono
  show bucket.tokens ≤ (refillTokens bucket now).tokens
  rw [refillTokens]
  simp only [ratMin_eq_min]
  have hd : 0 ≤ (now - bucket.lastRefill) / 1000 * 3 := by
    have ht : (0 : ℚ) ≤ now - bucket.lastRefill := sub_nonneg.mpr hmono
    positivity
  exact le_min h10 (by linarith)

/-- C4 witness: an empty bucket at time 0 denies the send; the outcome is the
single RATE_LIMIT error and an unchanged table. -/
theorem c4_rate_limit_denial_witness :
    (processMessageFrame emptyStore [] ⟨"u", "U", none⟩ ⟨0, 0, 0, 0⟩ ⟨"default", "hi"⟩ 0
      "X").senderFrames = [OutFrame.error ErrCode.RATE_LIMIT "Too many messages. Slow down."] ∧
    (processMessageFrame emptyStore [] ⟨"u", "U", none⟩ ⟨0, 0, 0, 0⟩ ⟨"default", "hi"⟩ 0
      "X").db = [] ∧
    (processMessageFrame emptyStore [] ⟨"u", "U", none⟩ ⟨0, 0, 0, 0⟩ ⟨"default", "hi"⟩ 0
      "X").broadcast = [] := by
  have h := c4_rate_limit_denial emptyStore [] ⟨"u", "U", none⟩ ⟨0, 0, 0, 0⟩ ⟨"default", "hi"⟩ 0
    "X" (by decide) (by norm_num [refillTokens, ratMin])
  exact ⟨h.1, h.2.1, h.2.2.1⟩

/-! ### C1 -/

/-- C1 counterexample: Alice's connection currently sits in `"default"`, yet a
`message` frame for room `"other"` is not rejected: no BAD_REQUEST is sent,
the row is persisted under `"other"`, and the frame is broadcast to the
members of `"other"`. -/
theorem c1_counterexample :
    (processMessageFrame demoStore [] ⟨"alice", "Alice", some "default"⟩ (initBucket 0)
        ⟨"other", "hi"⟩ 5 "M1") =
      { db := [⟨"M1", "other", "alice", "Alice", "hi", 5⟩]
        bucket := { tokens := 9, lastRefill := 5, lastMessageTime := 5, messageCount := 1 }
        senderFrames := []
        broadcast := [("carol", OutFrame.message "M1" "other" "alice" "Alice" "hi" none 5)] } ∧
    (⟨"alice", "Alice", some "default"⟩ : ConnInfo).roomId ≠ some "other" := by
  constructor
  · simp only [processMessageFrame]
    rw [if_neg (by decide)]
    rw [if_neg (by norm_num [refillTokens, ratMin, initBucket])]
    simp [refillTokens, recordMessage, ratMin, ratMax, initBucket, demoStore, roomMembers,
      alookup]
    norm_num
  · decide

/-- C1 amended: `handleChatMessage` performs no room-membership check at all.
Whatever the connection's current room marker, a frame passing the schema
(text length at most 2000) that is not rate-limited is persisted under the
frame's `roomId` and broadcast to that room's connected members, with no
error to the sender; the outcome is independent of the connection's current
room. -/
theorem c1_no_room_check (s : SrvState) (db : List Msg) (conn : ConnInfo) (bucket : Bucket)
    (f : MsgFrame) (now : ℚ) (newId : String)
    (hlen : f.text.length ≤ 2000)
    (hlim : ¬(refillTokens bucket now).tokens < 1) :
    (processMessageFrame s db conn bucket f now newId).db =
      db ++ [⟨newId, f.roomId, conn.userId, conn.displayName, f.text, now⟩] ∧
    (processMessageFrame s db conn bucket f now newId).senderFrames = [] ∧
    (processMessageFrame s db conn bucket f now newId).broadcast =
      ((roomMembers s f.roomId).filter (fun uid => (alookup s.connections uid).isSome)).map
        (fun uid =>
          (uid, OutFrame.message newId f.roomId conn.userId conn.displayName f.text none now)) ∧
    (∀ r' : Option String,
        processMessageFrame s db { conn with roomId := r' } bucket f now newId =
          processMessageFrame s db conn bucket f now newId) := by
  refine ⟨?_, ?_, ?_, fun _ => rfl⟩ <;>
    · unfold processMessageFrame
      rw [if_neg (not_lt.mpr hlen), if_neg hlim]

/-- C1 witness: the concrete cross-room send is accepted and persisted. -/
theorem c1_no_room_check_witness :
    (processMessageFrame demoStore [] ⟨"alice", "Alice", some "default"⟩ (initBucket 0)
        ⟨"other", "hi"⟩ 5 "M1").senderFrames = [] ∧
    (processMessageFrame demoStore [] ⟨"alice", "Alice", some "default"⟩ (initBucket 0)
        ⟨"other", "hi"⟩ 5 "M1").db = [⟨"M1", "other", "alice", "Alice", "hi", 5⟩] := by
  have h := c1_no_room_check demoStore [] ⟨"alice", "Alice", some "default"⟩ (initBucket 0)
    ⟨"other", "hi"⟩ 5 "M1" (by decide) (by norm_num [refillTokens, ratMin, initBucket])
  exact ⟨h.2.1, h.1⟩

/-! ### C5 -/

/-- C5 counterexample: the empty text passes the schema (`z.string().max(2000)`
has no minimum and no trim): the message is accepted, persisted and
broadcast instead of being rejected with BAD_REQUEST. -/
theorem c5_counterexample :
    (processMessageFrame demoStore [] ⟨"alice", "Alice", some "default"⟩ (initBucket 0)
        ⟨"default", ""⟩ 7 "M2").senderFrames = [] ∧
    (processMessageFrame demoStore [] ⟨"alice", "Alice", some "default"⟩ (initBucket 0)
        ⟨"default", ""⟩ 7 "M2").db = [⟨"M2", "default", "alice", "Alice", "", 7⟩] ∧
    ("" : String).length = 0 := by
  refine ⟨?_, ?_, rfl⟩ <;>
    · simp only [processMessageFrame]
      rw [if_neg (by decide)]
      rw [if_neg (by norm_num [refillTokens, ratMin, initBucket])]
      try simp

/-- C5 amended: the schema checks length only — a frame is rejected with
BAD_REQUEST (and nothing persisted, broadcast, or charged) exactly when the
text exceeds 2000 characters; any text of length at most 2000, including the
empty and whitespace-only ones (there is no trim and no minimum), is accepted
when not rate-limited. -/
theorem c5_length_only (s : SrvState) (db : List Msg) (conn : ConnInfo) (bucket : Bucket)
    (f : MsgFrame) (now : ℚ) (newId : String) :
    (2000 < f.text.length →
      processMessageFrame s db conn bucket f now newId =
        { db := db, bucket := bucket
          senderFrames := [OutFrame.error ErrCode.BAD_REQUEST "Invalid message data"]
          broadcast := [] }) ∧
    (f.text.length ≤ 2000 → ¬(refillTokens bucket now).tokens < 1 →
      (processMessageFrame s db conn bucket f now newId).db =
        db ++ [⟨newId, f.roomId, conn.userId, conn.displayName, f.text, now⟩] ∧
      (processMessageFrame s db conn bucket f now newId).senderFrames = []) := by
  constructor
  · intro hlen
    unfold processMessageFrame
    rw [if_pos hlen]
  · intro hlen hlim
    unfold processMessageFrame
    rw [if_neg (not_lt.mpr hlen), if_neg hlim]
    exact ⟨rfl, rfl⟩

set_option maxRecDepth 10000 in
/-- C5 witness: a 2001-character text is rejected with BAD_REQUEST, while the
empty text goes through with no error frame. -/
theorem c5_length_only_witness :
    (processMessageFrame demoStore [] ⟨"alice", "Alice", some "default"⟩ (initBucket 0)
        ⟨"default", longText⟩ 0 "M3").senderFrames =
      [OutFrame.error ErrCode.BAD_REQUEST "Invalid message data"] ∧
    (processMessageFrame demoStore [] ⟨"alice", "Alice", some "default"⟩ (initBucket 0)
        ⟨"default", ""⟩ 0 "M3").senderFrames = [] := by
  have hlen : 2000 < longText.length := by
    show 2000 < (List.replicate 2001 'a').length
    rw [List.length_replicate]
    norm_num
  constructor
  · rw [(c5_length_only demoStore [] ⟨"alice", "Alice", some "default"⟩ (initBucket 0)
      ⟨"default", longText⟩ 0 "M3").1 hlen]
  · exact ((c5_length_only demoStore [] ⟨"alice", "Alice", some "default"⟩ (initBucket 0)
      ⟨"default", ""⟩ 0 "M3").2 (by decide)
      (by norm_num [refillTokens, ratMin, initBucket])).2

/-! ### C2 -/

/-- C2: the repo's `extractMentions` does resolve `@Bob` (and drops `@carol`,
who is not a member) — but `handleChatMessage` never calls it: the broadcast
frames carry no mentions (the `createMessage` call omits the mentions
argument, marked TODO in the source), and the stored row has no mentions
column, contradicting the claimed behavior on the spec's own S2 scenario. -/
theorem c2_mentions_not_resolved :
    extractMentions "hello @Bob and @carol" [⟨"alice", "Alice"⟩, ⟨"bob", "Bob"⟩] = ["bob"] ∧
    (processMessageFrame demoStore [] ⟨"alice", "Alice", some "default"⟩ (initBucket 0)
        ⟨"default", "hello @Bob and @carol"⟩ 9 "M4").broadcast =
      [("alice", OutFrame.message "M4" "default" "alice" "Alice" "hello @Bob and @carol" none 9),
       ("bob", OutFrame.message "M4" "default" "alice" "Alice" "hello @Bob and @carol" none 9)] ∧
    (processMessageFrame demoStore [] ⟨"alice", "Alice", some "default"⟩ (initBucket 0)
        ⟨"default", "hello @Bob and @carol"⟩ 9 "M4").db =
      [⟨"M4", "default", "alice", "Alice", "hello @Bob and @carol", 9⟩] := by
  refine ⟨by decide, ?_, ?_⟩ <;>
    · simp only [processMessageFrame]
      rw [if_neg (by decide)]
      rw [if_neg (by norm_num [refillTokens, ratMin, initBucket])]
      simp [demoStore, roomMembers, alookup]

/-! ### C3 -/

/-- Every frame produced by a presence broadcast is a `presence` frame. -/
theorem broadcastPresence_frames (s : SrvState) (r : String) :
    ∀ p ∈ broadcastPresenceSends s r, p.2 = OutFrame.presence (memberView s r) := by
  intro p hp
  unfold broadcastPresenceSends at hp
  rw [List.mem_filterMap] at hp
  obtain ⟨uid, _, hmap⟩ := hp
  cases h : alookup s.connections uid with
  | none => rw [h] at hmap; simp at hmap
  | some cid =>
      rw [h] at hmap
      simp only [Option.map_some'] at hmap
      rw [← Option.some.inj hmap]

/-- C3 counterexample: user `"u"` has a live socket (number 1); a second
upgrade for `"u"` lands on socket 2. The registry now maps `"u"` to socket 2,
but the server closes nothing and every frame it emits goes to socket 2 —
socket 1 receives neither an `error{UNAUTH, "superseded"}` frame nor a 4001
close. -/
theorem c3_counterexample :
    (connectUser soloStore "u" "U" 2 3000).closes = [] ∧
    ((connectUser soloStore "u" "U" 2 3000).sends.all fun p => p.1 == 2) = true ∧
    alookup (connectUser soloStore "u" "U" 2 3000).state.connections "u" = some 2 := by
  refine ⟨rfl, ?_, ?_⟩ <;>
    simp [connectUser, addUser, joinRoom, soloStore, assocSet, assocUpdate, alookup, setAdd,
      memberView, roomMembers, broadcastPresenceSends, initBucket]

/-- C3 amended: on a repeated upgrade the registry does map the user to the
new sink and the new connection proceeds normally (`hello` plus a presence
broadcast), but no connection is ever closed by the server and no error frame
(in particular no `UNAUTH`/`"superseded"`) is emitted to anyone. -/
theorem c3_new_sink_no_close (s : SrvState) (u dn : String) (cid : ℕ) (now : ℚ) :
    alookup (connectUser s u dn cid now).state.connections u = some cid ∧
    (connectUser s u dn cid now).closes = [] ∧
    ((connectUser s u dn cid now).sends.all fun p => !(isErrFrame p.2)) = true := by
  refine ⟨alookup_assocSet_self s.connections u cid, rfl, ?_⟩
  rw [List.all_eq_true]
  intro p hp
  have hp' : p ∈ (cid, OutFrame.hello u (memberView (addUser s u dn cid now) "default")) ::
      broadcastPresenceSends (addUser s u dn cid now) "default" := hp
  rw [List.mem_cons] at hp'
  rcases hp' with rfl | hp'
  · rfl
  · rw [broadcastPresence_frames _ _ p hp']
    rfl

/-! ### C7 -/

/-- Membership in the `since` query result. -/
theorem mem_getMessagesSince (db : List Msg) (r : String) (t : ℚ) (m : Msg) :
    m ∈ getMessagesSince db r t ↔ m ∈ db ∧ m.roomId = r ∧ t < m.ts := by
  unfold getMessagesSince
  rw [List.mem_insertionSort, List.mem_filter]
  simp [and_assoc]

/-- A truthy `sinceTs` routes the join through the `since` query. -/
theorem handleJoin_messages_since (s : SrvState) (db : List Msg) (u r : String)
    (bid : Option String) (t : ℚ) (ht : t ≠ 0) :
    (handleJoin s db u ⟨r, some t, bid⟩).messages = getMessagesSince db r t := by
  unfold handleJoin
  simp [truthyNum, ht]

/-- C7 counterexample: `since_ts = 0` is falsy in JS, so the join falls back
to `recent(room, 100)` and re-delivers the stored row with `ts = 0 ≤ 0`. -/
theorem c7_counterexample :
    (handleJoin demoStore [rowEpoch] "u" ⟨"default", some 0, none⟩).messages = [rowEpoch] ∧
    rowEpoch.ts ≤ 0 := by
  constructor
  · simp [handleJoin, truthyNum, truthyStr, getRecentMessages, rowEpoch, demoStore]
  · norm_num [rowEpoch]

/-- C7 amended: the `since` query returns exactly the stored rows of the room
with `ts` strictly greater than the cursor, ordered oldest-first, and a
resumed join with a truthy `since_ts = t` (any `t ≠ 0`; `t = 0` is treated as
absent and falls back to `recent`) never delivers a message with `ts ≤ t`. -/
theorem c7_since_query :
    (∀ (db : List Msg) (r : String) (t : ℚ) (m : Msg),
        m ∈ getMessagesSince db r t ↔ m ∈ db ∧ m.roomId = r ∧ t < m.ts) ∧
    (∀ (db : List Msg) (r : String) (t : ℚ), List.Sorted byTsAsc (getMessagesSince db r t)) ∧
    (∀ (s : SrvState) (db : List Msg) (u r : String) (t : ℚ) (bid : Option String),
        t ≠ 0 → ∀ m ∈ (handleJoin s db u ⟨r, some t, bid⟩).messages, t < m.ts) := by
  refine ⟨mem_getMessagesSince, fun db r t => List.sorted_insertionSort byTsAsc _, ?_⟩
  intro s db u r t bid ht m hm
  rw [handleJoin_messages_since s db u r bid t ht] at hm
  exact ((mem_getMessagesSince db r t m).mp hm).2.2

/-- C7 witness: the membership law, sortedness, and the no-redelivery bound,
each at a concrete instance. -/
theorem c7_since_query_witness :
    (rowTwo ∈ getMessagesSince [rowOne, rowTwo] "default" 1 ↔
      rowTwo ∈ [rowOne, rowTwo] ∧ rowTwo.roomId = "default" ∧ 1 < rowTwo.ts) ∧
    List.Sorted byTsAsc (getMessagesSince [rowOne, rowTwo] "default" 1) ∧
    1 < rowTwo.ts := by
  refine ⟨c7_since_query.1 [rowOne, rowTwo] "default" 1 rowTwo,
    c7_since_query.2.1 [rowOne, rowTwo] "default" 1,
    c7_since_query.2.2 demoStore [rowOne, rowTwo] "u" "default" 1 none (by norm_num) rowTwo ?_⟩
  rw [handleJoin_messages_since demoStore [rowOne, rowTwo] "u" "default" none 1 (by norm_num)]
  rw [mem_getMessagesSince]
  refine ⟨by simp, rfl, by norm_num [rowTwo]⟩

/-! ### C8 -/

/-- C8 counterexample: the table holds rows `01A` (ts 1) and `01B` (ts 2); a
join carrying `before_id = "01A"` should, per the claim, return only rows
with id strictly preceding `01A` — none — but the code returns the room's
recent rows, including the row whose id equals the cursor itself. -/
theorem c8_counterexample :
    (handleJoin demoStore [rowOne, rowTwo] "u" ⟨"default", none, some "01A"⟩).messages =
      [rowOne, rowTwo] ∧
    rowOne.id = "01A" := by
  constructor
  · norm_num [handleJoin, truthyNum, truthyStr, getRecentMessages, List.insertionSort,
      List.orderedInsert, byTsDesc, rowOne, rowTwo, demoStore]
    rw [if_neg (show ¬("01A" = "") from by decide)]
  · rfl

/-- C8 amended: a join carrying `before_id` (with no truthy `since_ts`)
returns `recent(room, 100)` — the room's newest 100 rows oldest-first; the
`before` query is never consulted (and the repository's `getMessagesBefore`
filters by timestamp, not by id, so an id-cursor page is not even available). -/
theorem c8_before_falls_back (s : SrvState) (db : List Msg) (u room bid : String) :
    (handleJoin s db u ⟨room, none, some bid⟩).messages = getRecentMessages db room 100 := by
  unfold handleJoin
  by_cases h : bid = "" <;> simp [truthyNum, truthyStr, h]

/-! ### C9 -/

/-- C9: the sweep caps only room `"default"`. Any row of another room that is
within the TTL window survives the sweep no matter how many rows its room
holds (ids are unique — `id` is the primary key — which the uniqueness
hypothesis expresses). With 501 fresh rows in room `"other"`, all 501 are
still there after the sweep, violating the per-room cap the claim states. -/
theorem c9_nondefault_uncapped (db : List Msg) (now : ℚ) (m : Msg)
    (hmem : m ∈ db) (hroom : m.roomId ≠ "default")
    (hfresh : now - 86400000 ≤ m.ts)
    (huniq : ∀ m' ∈ db, m'.id = m.id → m' = m) :
    m ∈ runCleanupJob db now := by
  unfold runCleanupJob
  have h1 : m ∈ cleanupByTtl db (now - 86400000) := by
    unfold cleanupByTtl
    rw [List.mem_filter]
    exact ⟨hmem, by simpa using hfresh⟩
  unfold cleanupByCount
  rw [List.mem_filter]
  refine ⟨h1, ?_⟩
  rw [decide_eq_true_eq]
  intro hid
  rw [List.mem_map] at hid
  obtain ⟨m', hm', hid'⟩ := hid
  have hm'sort : m' ∈ List.insertionSort byTsDesc
      ((cleanupByTtl db (now - 86400000)).filter (fun x => x.roomId == "default")) :=
    List.mem_of_mem_drop hm'
  rw [List.mem_insertionSort, List.mem_filter] at hm'sort
  have hm'db : m' ∈ db := List.mem_of_mem_filter hm'sort.1
  have heq : m' = m := huniq m' hm'db hid'
  subst heq
  exact hroom (by simpa using hm'sort.2)

/-- C9 witness: the fresh row of room `"other"` survives a sweep of the
two-room table. -/
theorem c9_nondefault_uncapped_witness : rowOther ∈ runCleanupJob twoRoomDb 1000 := by
  refine c9_nondefault_uncapped twoRoomDb 1000 rowOther (by simp [twoRoomDb]) (by decide)
    (by norm_num [rowOther]) ?_
  intro m' hm' hid
  simp only [twoRoomDb, List.mem_cons, List.not_mem_nil, or_false] at hm'
  rcases hm' with rfl | rfl
  · rfl
  · exact absurd hid (by decide)

/-! ### C10 -/

/-- Joining a room turns its member list into `setAdd` of the old one. -/
theorem roomMembers_joinRoom_self (s : SrvState) (u r : String) :
    roomMembers (joinRoom s u r) r = setAdd (roomMembers s r) u := by
  unfold joinRoom roomMembers
  cases h : alookup s.rooms r with
  | some ms =>
      simp only [h, Option.isSome_some, if_pos]
      rw [alookup_assocUpdate_self, h]
      rfl
  | none =>
      simp only [h, Option.isSome_none, Bool.false_eq_true, if_false]
      rw [alookup_assocUpdate_self, alookup_append_single_self s.rooms r [] h]
      rfl

/-- Joining one room does not change any other room's member list. -/
theorem roomMembers_joinRoom_ne (s : SrvState) (u r r' : String) (h : r ≠ r') :
    roomMembers (joinRoom s u r) r' = roomMembers s r' := by
  unfold joinRoom roomMembers
  rw [alookup_assocUpdate_ne _ _ _ _ h]
  cases hx : alookup s.rooms r with
  | some ms => simp only [hx, Option.isSome_some, if_pos]
  | none =>
      simp only [hx, Option.isSome_none, Bool.false_eq_true, if_false]
      rw [alookup_append_single_ne _ _ _ _ h]

/-- After `removeUser`, the user belongs to no room. -/
theorem not_mem_roomMembers_removeUser (s : SrvState) (u r : String) :
    u ∉ roomMembers (removeUser s u) r := by
  unfold removeUser roomMembers
  show u ∉ (alookup (s.rooms.filterMap _) r).getD []
  generalize s.rooms = L
  induction L with
  | nil => simp [alookup]
  | cons p rest ih =>
      obtain ⟨a, ms⟩ := p
      rw [List.filterMap_cons]
      by_cases hempty : ((ms.filter (fun v => v != u)).isEmpty : Bool) = true
      · simpa [hempty] using ih
      · simp only [hempty, Bool.false_eq_true, if_false]
        by_cases ha : a = r
        · simp only [alookup, ha, if_pos, Option.getD_some]
          intro hu
          rw [List.mem_filter] at hu
          simp at hu
        · simpa [alookup, ha] using ih

/-- C10: joining `B` after `A` leaves the user a member of both rooms; a join
never removes anyone's membership anywhere; the per-socket current-room
marker holds only the most recent room; only `removeUser` (the disconnect
path) strips the user from every room; and the display-name and typing
operations leave the room table untouched. -/
theorem c10_join_preserves (s : SrvState) (u A B : String) (hAB : A ≠ B) :
    (u ∈ roomMembers (joinRoom (joinRoom s u A) u B) A ∧
     u ∈ roomMembers (joinRoom (joinRoom s u A) u B) B) ∧
    (∀ (v r r' : String), v ∈ roomMembers s r → v ∈ roomMembers (joinRoom s u r') r) ∧
    (∀ r : String, u ∉ roomMembers (removeUser (joinRoom (joinRoom s u A) u B) u) r) ∧
    (∀ cid : ℕ, alookup s.connections u = some cid →
        alookup (joinRoom (joinRoom s u A) u B).connRoom cid = some (some B)) ∧
    (∀ dn : String, (updateDisplayName s u dn).rooms = s.rooms) ∧
    (∀ r : String, (startTyping s u r).rooms = s.rooms ∧ (stopTyping s u r).rooms = s.rooms) := by
  refine ⟨⟨?_, ?_⟩, ?_, ?_, ?_, fun _ => rfl, ?_⟩
  · rw [roomMembers_joinRoom_ne _ u B A (Ne.symm hAB), roomMembers_joinRoom_self, mem_setAdd]
    exact Or.inr rfl
  · rw [roomMembers_joinRoom_self, mem_setAdd]
    exact Or.inr rfl
  · intro v r r' hv
    by_cases h : r' = r
    · subst h
      rw [roomMembers_joinRoom_self, mem_setAdd]
      exact Or.inl hv
    · rw [roomMembers_joinRoom_ne _ u r' r h]
      exact hv
  · intro r
    exact not_mem_roomMembers_removeUser _ u r
  · intro cid hcid
    show alookup (match alookup (joinRoom s u A).connections u with
      | some c => assocSet (joinRoom s u A).connRoom c (some B)
      | none => (joinRoom s u A).connRoom) cid = some (some B)
    rw [show (joinRoom s u A).connections = s.connections from rfl, hcid]
    exact alookup_assocSet_self _ _ _
  · intro r
    constructor
    · rfl
    · unfold stopTyping
      cases alookup s.typing r with
      | none => rfl
      | some ms => by_cases h : ((ms.filter (fun v => v != u)).isEmpty : Bool) = true <;> simp [h]

/-- C10 witness: in the one-user store, joining `"alpha"` then `"beta"` keeps
both memberships, the marker reads `"beta"`, and removal strips `"alpha"`. -/
theorem c10_join_preserves_witness :
    "u" ∈ roomMembers (joinRoom (joinRoom soloStore "u" "alpha") "u" "beta") "alpha" ∧
    "u" ∈ roomMembers (joinRoom (joinRoom soloStore "u" "alpha") "u" "beta") "beta" ∧
    "u" ∉ roomMembers (removeUser (joinRoom (joinRoom soloStore "u" "alpha") "u" "beta") "u")
      "alpha" ∧
    alookup (joinRoom (joinRoom soloStore "u" "alpha") "u" "beta").connRoom 1 =
      some (some "beta") := by
  have h := c10_join_preserves soloStore "u" "alpha" "beta" (by decide)
  exact ⟨h.1.1, h.1.2, h.2.2.1 "alpha", h.2.2.2.1 1 (by decide)⟩
